import Mathlib

/-!
Shallow embedding of the `re-mem` memoization library (the revision whose
behaviour the repository's test suite exercises: options `maxAge`,
`staleWhileRevalidate`, `staleIfError`, `cachePromiseRejection`, eviction
scheduled at `timeoutTime = max(maxAge, staleIfError + maxAge,
staleWhileRevalidate + maxAge)`, and a `clear` entry point raising two
distinct usage errors).

Modelling decisions:
- JS timestamps and durations are numbers that may be `Infinity`; we model
  durations as `ℕ∞` and instants as `ℕ`.  `NaN` never arises on the paths
  modelled (no subtraction).
- A JS duration option that is `undefined` is falsy wherever the source
  tests it (`staleWhileRevalidate ? … : 0`), exactly like `0`, so unset
  optional windows are encoded as `0`.
- A promise is modelled as a handle: an identity (`id`, allocated from a
  counter so that distinct promise objects have distinct ids) together
  with the outcome it eventually settles to.
- The wrapped operation is a behaviour `ℕ → OpCall`, giving for the n-th
  invocation either a returned promise outcome or a synchronous throw;
  `Promise.resolve().then(() => fn.apply(this, args))` converts a
  synchronous throw into a rejection (`settle`).
- The source arms real `setTimeout` timers; we record on each cache entry
  the absolute instant its eviction timer fires (`timeout`), `none` when
  `timeoutTime` is infinite and no timer is created.  Timer firing is a
  separate event and is not folded into a call step.
- A call of the memoized function at instant `now` is one step
  (`reMemFn`): it returns the promise handle handed to the caller, the
  state after the synchronous part of the call together with the awaited
  completion effects, and, for the stale-while-revalidate path, the
  detached background continuation (`BackgroundJob`), whose later
  completion is applied by `runBackground`.
- The cold path is split into its synchronous phase (`coldInstall`, which
  installs the in-flight entry before the operation settles) and the
  rejection handler that runs when the operation settles (`coldSettle`).
-/

namespace ReMem

/-- Durations and window ends: JS numbers that may be `Infinity`. -/
abbrev Duration := ℕ∞

/-- Instants (values of `Date.now()` and timer deadlines). -/
abbrev Time := ℕ

/-- Outcome a promise settles to: fulfilled with a value or rejected with
an error. -/
inductive Outcome (E V : Type) where
  | ok (v : V)
  | err (e : E)
deriving DecidableEq

/-- A promise handle: object identity plus the outcome it settles to. -/
structure Prom (V E : Type) where
  id : ℕ
  result : Outcome E V
deriving DecidableEq

/-- Configuration of one `reMem` wrapper (the options record).  Unset
optional windows are encoded as `0`, which the source treats identically
(falsy). -/
structure Options where
  maxAge : Duration
  staleWhileRevalidate : Duration
  staleIfError : Duration
  cachePromiseRejection : Bool
deriving DecidableEq

/-- Defaults of the options record: `maxAge = Infinity`, stale windows
unset, `cachePromiseRejection = false`. -/
def Options.default : Options :=
  { maxAge := ⊤, staleWhileRevalidate := 0, staleIfError := 0,
    cachePromiseRejection := false }

/-- One cache entry (`CacheItem`), as stored by `setCacheItem`:
the data promise, the `timestamp` passed in, copies of the configured
windows, and the eviction timer (`some fireTime`, or `none` when no timer
was created). -/
structure CacheItem (V E : Type) where
  data : Prom V E
  timestamp : Time
  maxAge : Duration
  staleWhileRevalidate : Duration
  staleIfError : Duration
  timeout : Option Time
deriving DecidableEq

/-- The cache store: a mapping from keys to entries. -/
abbrev Cache (K V E : Type) := K → Option (CacheItem V E)

/-- Value of the source's `timeoutTime`:
`Math.max(maxAge, staleIfError ? staleIfError + maxAge : 0,
staleWhileRevalidate ? staleWhileRevalidate + maxAge : 0)`. -/
def timeoutTime (o : Options) : Duration :=
  max o.maxAge
    (max (if o.staleIfError ≠ 0 then o.staleIfError + o.maxAge else 0)
      (if o.staleWhileRevalidate ≠ 0 then o.staleWhileRevalidate + o.maxAge else 0))

variable {K V E : Type} [DecidableEq K]

/-- The source's `setCacheItem(key, fnPromise, timestamp)`: install an entry carrying
the promise, the given `timestamp`, the configured windows, and a timer
scheduled `timeoutTime` after the ambient instant of the call
(`callTime`), created only when `timeoutTime` is finite. -/
def setCacheItem (o : Options) (cache : Cache K V E) (key : K)
    (fnPromise : Prom V E) (timestamp : Time) (callTime : Time) : Cache K V E :=
  fun k =>
    if k = key then
      some { data := fnPromise
             timestamp := timestamp
             maxAge := o.maxAge
             staleWhileRevalidate := o.staleWhileRevalidate
             staleIfError := o.staleIfError
             timeout :=
               if timeoutTime o ≠ ⊤ then
                 some (callTime + (timeoutTime o).toNat)
               else none }
    else cache k

/-- Behaviour of one invocation of the wrapped operation `fn`: it either
returns (a promise settling to) an outcome, or throws synchronously. -/
inductive OpCall (V E : Type) where
  | promise (r : Outcome E V)
  | throws (e : E)
deriving DecidableEq

/-- Behaviour of the wrapped operation, indexed by invocation count. -/
abbrev Op (V E : Type) := ℕ → OpCall V E

/-- Semantics of `Promise.resolve().then(() => fn.apply(this, args))`:
a synchronous throw inside the callback rejects the resulting promise. -/
def settle : OpCall V E → Outcome E V
  | .promise r => r
  | .throws e => .err e

/-- Mutable state threaded through calls: the cache, the promise-identity
allocator, and the number of invocations of the wrapped operation so
far. -/
structure State (K V E : Type) where
  cache : Cache K V E
  nextId : ℕ
  calls : ℕ

/-- Invoke the wrapped operation once: allocate the `fnPromise` handle
for this invocation and count the call. -/
def invokeFn (op : Op V E) (s : State K V E) : Prom V E × State K V E :=
  (⟨s.nextId, settle (op s.calls)⟩,
    { s with nextId := s.nextId + 1, calls := s.calls + 1 })

/-- A detached stale-while-revalidate refresh: the continuation
`p.then(res => { clearTimeout(…); setCacheItem(key, fnPromise, now); })
.catch(() => {})`, captured with the dispatch instant `now`. -/
structure BackgroundJob (K V E : Type) where
  key : K
  fnPromise : Prom V E
  now : Time

/-- Apply a background refresh completion at instant `settleTime`:
on fulfilment the new entry is installed with timestamp `now`; on
rejection the handler swallows the error and the cache is untouched. -/
def runBackground (o : Options) (job : BackgroundJob K V E)
    (settleTime : Time) (cache : Cache K V E) : Cache K V E :=
  match job.fnPromise.result with
  | .ok _ => setCacheItem o cache job.key job.fnPromise job.now settleTime
  | .err _ => cache

/-- Result of one call of the memoized function: the promise handed to
the caller, the resulting state, and the detached background refresh when
one was started. -/
structure CallResult (K V E : Type) where
  returned : Prom V E
  state : State K V E
  background : Option (BackgroundJob K V E)

/-- Synchronous phase of the cold path: start the operation and install
the in-flight entry immediately, before the operation settles. -/
def coldInstall (o : Options) (op : Op V E) (key : K) (now : Time)
    (s : State K V E) : Prom V E × State K V E :=
  let p := invokeFn op s
  (p.1, { p.2 with cache := setCacheItem o p.2.cache key p.1 now now })

/-- The cold path's `fnPromise.catch` handler, run when the operation
settles: on rejection with `cachePromiseRejection` disabled, clear the
entry's timer and delete the entry; otherwise leave the state alone.  The
rejection is rethrown either way (the caller's handle already carries
it). -/
def coldSettle (o : Options) (key : K) (fnPromise : Prom V E)
    (s : State K V E) : State K V E :=
  match fnPromise.result with
  | .ok _ => s
  | .err _ =>
    if o.cachePromiseRejection then s
    else { s with cache := fun k => if k = key then none else s.cache k }

/-- The full cold path: install the in-flight entry, then apply the
settlement handler (awaited by the caller). -/
def reMemColdPath (o : Options) (op : Op V E) (key : K) (now : Time)
    (s : State K V E) : CallResult K V E :=
  let p := coldInstall o op key now s
  ⟨p.1, coldSettle o key p.1 p.2, none⟩

/-- One call of the memoized function `reMemFn` at instant `now`,
mirroring the source's dispatch:

1. no entry → cold path;
2. entry without a timer (no expiry) → return `cacheItem.data`;
3. `cacheItem.timestamp + cacheItem.maxAge > now` → return
   `cacheItem.data`;
4. `cacheItem.timestamp + timeoutTime > now` → invoke the operation;
   if `staleWhileRevalidate && cacheItem.staleWhileRevalidate &&
   cacheItem.timestamp + cacheItem.maxAge + cacheItem.staleWhileRevalidate
   > now`, return the stale `cacheItem.data` and detach the refresh;
   otherwise await `p = fnPromise.then(install)` with
   `p.catch(() => cacheItem.data)` (the returned promise `p` is a new
   object, allocated a fresh identity here, where its identity is
   observable);
5. otherwise fall through to the cold path. -/
def reMemFn (o : Options) (op : Op V E) (key : K) (now : Time)
    (s : State K V E) : CallResult K V E :=
  match s.cache key with
  | some cacheItem =>
    if cacheItem.timeout = none then
      ⟨cacheItem.data, s, none⟩
    else if (cacheItem.timestamp : ℕ∞) + cacheItem.maxAge > (now : ℕ∞) then
      ⟨cacheItem.data, s, none⟩
    else if (cacheItem.timestamp : ℕ∞) + timeoutTime o > (now : ℕ∞) then
      let p := invokeFn op s
      if o.staleWhileRevalidate ≠ 0 ∧ cacheItem.staleWhileRevalidate ≠ 0 ∧
          (cacheItem.timestamp : ℕ∞) + cacheItem.maxAge +
            cacheItem.staleWhileRevalidate > (now : ℕ∞) then
        ⟨cacheItem.data, p.2, some ⟨key, p.1, now⟩⟩
      else
        match p.1.result with
        | .ok v =>
          ⟨⟨p.2.nextId, .ok v⟩,
            { p.2 with
              cache := setCacheItem o p.2.cache key p.1 now now
              nextId := p.2.nextId + 1 },
            none⟩
        | .err _ =>
          ⟨⟨p.2.nextId, cacheItem.data.result⟩,
            { p.2 with nextId := p.2.nextId + 1 }, none⟩
    else
      reMemColdPath o op key now s
  | none => reMemColdPath o op key now s

/-- Fold a sequence of calls (at the given instants) over the state. -/
def runCalls (o : Options) (op : Op V E) (key : K) (ts : List Time)
    (s : State K V E) : State K V E :=
  ts.foldl (fun st t => (reMemFn o op key t st).state) s

/-- Usage errors raised by `clear`. -/
inductive ClearError where
  | notMemoized
  | cacheNotClearable
deriving DecidableEq

/-- A cache store as `clear` sees it: its entries and whether it offers a
`clear` capability. -/
structure BoundCache (K V E : Type) where
  entries : Cache K V E
  hasClear : Bool

/-- The exported `clear(fn)`: `memoized` models whether `fn` is present
in the process-wide handle-to-store registry; a miss raises one usage
error, a store without a `clear` method raises the other, and otherwise
the store is bulk-cleared.  The result pairs the raised error (if any)
with the store afterwards. -/
def clearFn (memoized : Bool) (c : BoundCache K V E) :
    Option ClearError × BoundCache K V E :=
  if memoized = false then (some .notMemoized, c)
  else if c.hasClear = false then (some .cacheNotClearable, c)
  else (none, { c with entries := fun _ => none })

/-! Basic lemmas about the embedding. -/

lemma le_timeoutTime_maxAge (o : Options) : o.maxAge ≤ timeoutTime o :=
  le_max_left _ _

lemma le_timeoutTime_swr (o : Options) (h : o.staleWhileRevalidate ≠ 0) :
    o.maxAge + o.staleWhileRevalidate ≤ timeoutTime o := by
  unfold timeoutTime
  rw [if_pos h, add_comm o.maxAge]
  exact le_trans (le_max_right _ _) (le_max_right _ _)

lemma le_timeoutTime_sie (o : Options) (h : o.staleIfError ≠ 0) :
    o.maxAge + o.staleIfError ≤ timeoutTime o := by
  unfold timeoutTime
  rw [if_pos h, add_comm o.maxAge]
  exact le_trans (le_max_left _ _) (le_max_right _ _)

lemma max_windows_le_timeoutTime (o : Options) :
    max o.maxAge (max (o.maxAge + o.staleWhileRevalidate)
      (o.maxAge + o.staleIfError)) ≤ timeoutTime o := by
  refine max_le (le_timeoutTime_maxAge o) (max_le ?_ ?_)
  · by_cases h : o.staleWhileRevalidate = 0
    · simpa [h] using le_timeoutTime_maxAge o
    · exact le_timeoutTime_swr o h
  · by_cases h : o.staleIfError = 0
    · simpa [h] using le_timeoutTime_maxAge o
    · exact le_timeoutTime_sie o h

lemma timeoutTime_eq_top (o : Options) (h : o.maxAge = ⊤) :
    timeoutTime o = ⊤ := by
  unfold timeoutTime
  rw [h]
  exact max_eq_left le_top

lemma setCacheItem_self (o : Options) (cache : Cache K V E) (key : K)
    (p : Prom V E) (ts ct : Time) :
    setCacheItem o cache key p ts ct key =
      some { data := p, timestamp := ts, maxAge := o.maxAge,
             staleWhileRevalidate := o.staleWhileRevalidate,
             staleIfError := o.staleIfError,
             timeout :=
               if timeoutTime o ≠ ⊤ then
                 some (ct + (timeoutTime o).toNat)
               else none } := by
  simp [setCacheItem]

lemma setCacheItem_other (o : Options) (cache : Cache K V E) (key k : K)
    (p : Prom V E) (ts ct : Time) (h : k ≠ key) :
    setCacheItem o cache key p ts ct k = cache k := by
  simp [setCacheItem, h]

lemma reMemFn_noExpiry (o : Options) (op : Op V E) (key : K) (now : Time)
    (s : State K V E) (ci : CacheItem V E)
    (hci : s.cache key = some ci) (ht : ci.timeout = none) :
    reMemFn o op key now s = ⟨ci.data, s, none⟩ := by
  unfold reMemFn
  rw [hci]
  simp [ht]

lemma reMemFn_fresh (o : Options) (op : Op V E) (key : K) (now : Time)
    (s : State K V E) (ci : CacheItem V E)
    (hci : s.cache key = some ci)
    (hfresh : (ci.timestamp : ℕ∞) + ci.maxAge > (now : ℕ∞)) :
    reMemFn o op key now s = ⟨ci.data, s, none⟩ := by
  unfold reMemFn
  rw [hci]
  by_cases ht : ci.timeout = none <;> simp [ht, hfresh]

lemma reMemFn_cold_of_none (o : Options) (op : Op V E) (key : K) (now : Time)
    (s : State K V E) (hc : s.cache key = none) :
    reMemFn o op key now s = reMemColdPath o op key now s := by
  unfold reMemFn
  rw [hc]

lemma coldSettle_calls (o : Options) (key : K) (fp : Prom V E)
    (s : State K V E) : (coldSettle o key fp s).calls = s.calls := by
  unfold coldSettle
  rcases fp.result with _ | _ <;> by_cases h : o.cachePromiseRejection <;>
    simp [h]

lemma coldSettle_nextId (o : Options) (key : K) (fp : Prom V E)
    (s : State K V E) : (coldSettle o key fp s).nextId = s.nextId := by
  unfold coldSettle
  rcases fp.result with _ | _ <;> by_cases h : o.cachePromiseRejection <;>
    simp [h]

lemma reMemColdPath_returned (o : Options) (op : Op V E) (key : K)
    (now : Time) (s : State K V E) :
    (reMemColdPath o op key now s).returned = ⟨s.nextId, settle (op s.calls)⟩ :=
  rfl

lemma reMemColdPath_calls (o : Options) (op : Op V E) (key : K) (now : Time)
    (s : State K V E) :
    (reMemColdPath o op key now s).state.calls = s.calls + 1 := by
  unfold reMemColdPath coldInstall invokeFn
  rw [coldSettle_calls]

lemma reMemColdPath_background (o : Options) (op : Op V E) (key : K)
    (now : Time) (s : State K V E) :
    (reMemColdPath o op key now s).background = none :=
  rfl

/-- The claim C1.
For every key with an installed entry, a call made while `now` is strictly
before `createdAt + freshFor` returns the stored entry value unchanged,
leaves the state untouched (so the wrapped operation is not invoked), and
starts no background refresh, whatever stale policies the options
configure. -/
theorem c1_fresh_zone_serves_entry (o : Options) (op : Op V E) (key : K)
    (now : Time) (s : State K V E) (ci : CacheItem V E)
    (hci : s.cache key = some ci)
    (hfresh : (now : ℕ∞) < (ci.timestamp : ℕ∞) + ci.maxAge) :
    reMemFn o op key now s = ⟨ci.data, s, none⟩ :=
  reMemFn_fresh o op key now s ci hci hfresh

/-- Witness for C1: a concrete fresh-zone call, with both stale policies
configured, returns the stored entry and changes nothing. -/
theorem c1_fresh_zone_serves_entry_witness :
    reMemFn (K := ℕ) (V := ℕ) (E := ℕ)
        ⟨100, 500, 500, false⟩ (fun _ => .promise (.err 7)) 0 50
        ⟨fun k => if k = 0 then
            some ⟨⟨0, .ok 42⟩, 0, 100, 500, 500, some 600⟩ else none, 1, 1⟩ =
      ⟨⟨0, .ok 42⟩,
        ⟨fun k => if k = 0 then
            some ⟨⟨0, .ok 42⟩, 0, 100, 500, 500, some 600⟩ else none, 1, 1⟩,
        none⟩ :=
  c1_fresh_zone_serves_entry _ _ _ _ _ _ rfl (by decide)

/-- Counterexample to C2 as stated.
With `maxAge = 100`, `staleWhileRevalidate = 500`, `staleIfError = ∞`,
the entry installed by a successful call at `t = 0` carries no eviction
timer (`timeoutTime` is infinite), so a call at `t = 150` — fresh window
elapsed, strictly inside the configured stale-while-revalidate window —
is served by the no-expiry branch: it returns the cached value but
detaches no background refresh and does not invoke the wrapped operation
at all. -/
theorem c2_swr_zone_counterexample :
    ((reMemFn (K := ℕ) (V := ℕ) (E := ℕ) ⟨100, 500, ⊤, false⟩
        (fun _ => .promise (.ok 1)) 0 0
        ⟨fun _ => none, 0, 0⟩).state.cache 0 =
      some ⟨⟨0, .ok 1⟩, 0, 100, 500, ⊤, none⟩) ∧
    ¬ (((0 : Time) : ℕ∞) + (100 : ℕ∞) > ((150 : Time) : ℕ∞)) ∧
    (((0 : Time) : ℕ∞) + (100 : ℕ∞) + (500 : ℕ∞) > ((150 : Time) : ℕ∞)) ∧
    (reMemFn (K := ℕ) (V := ℕ) (E := ℕ) ⟨100, 500, ⊤, false⟩
        (fun _ => .promise (.ok 1)) 0 150
        (reMemFn (K := ℕ) (V := ℕ) (E := ℕ) ⟨100, 500, ⊤, false⟩
          (fun _ => .promise (.ok 1)) 0 0
          ⟨fun _ => none, 0, 0⟩).state).background = none ∧
    (reMemFn (K := ℕ) (V := ℕ) (E := ℕ) ⟨100, 500, ⊤, false⟩
        (fun _ => .promise (.ok 1)) 0 150
        (reMemFn (K := ℕ) (V := ℕ) (E := ℕ) ⟨100, 500, ⊤, false⟩
          (fun _ => .promise (.ok 1)) 0 0
          ⟨fun _ => none, 0, 0⟩).state).state.calls = 1 :=
  ⟨by decide, by decide, by decide, rfl, by decide⟩

/-- The claim C2, as amended.
For every entry carrying an eviction timer (no configured duration is
infinite) that is in the stale-while-revalidate zone (fresh window
elapsed, `now` within the configured stale-while-revalidate window), a
call immediately returns the existing stale entry value, starts the
wrapped operation as a detached background refresh (one more invocation,
no synchronous cache change), and if that refresh settles with an error
the background continuation leaves the cache — the stale entry and its
original timer — exactly as it was; no error reaches any caller (the
value already returned is `cacheItem.data`, independent of the refresh's
outcome).  The timer proviso is forced: an entry installed under an
infinite duration has no timer and is served from cache with no refresh
at all. -/
theorem c2_swr_zone_returns_stale_and_refreshes (o : Options) (op : Op V E)
    (key : K) (now : Time) (s : State K V E) (ci : CacheItem V E)
    (hci : s.cache key = some ci)
    (hma : ci.maxAge = o.maxAge)
    (hsw : ci.staleWhileRevalidate = o.staleWhileRevalidate)
    (ht : ci.timeout ≠ none)
    (hstale : ¬ ((ci.timestamp : ℕ∞) + ci.maxAge > (now : ℕ∞)))
    (hswr : o.staleWhileRevalidate ≠ 0)
    (hzone : (ci.timestamp : ℕ∞) + ci.maxAge + ci.staleWhileRevalidate >
      (now : ℕ∞)) :
    reMemFn o op key now s =
      ⟨ci.data, { s with nextId := s.nextId + 1, calls := s.calls + 1 },
        some ⟨key, ⟨s.nextId, settle (op s.calls)⟩, now⟩⟩ ∧
    (∀ (e : E) (settleTime : Time) (cache : Cache K V E),
      settle (op s.calls) = .err e →
      runBackground o ⟨key, ⟨s.nextId, settle (op s.calls)⟩, now⟩ settleTime
        cache = cache) := by
  have hgate : (ci.timestamp : ℕ∞) + timeoutTime o > (now : ℕ∞) := by
    refine lt_of_lt_of_le hzone ?_
    rw [hma, hsw, add_assoc]
    exact add_le_add_left (le_timeoutTime_swr o hswr) _
  have hcisw : ci.staleWhileRevalidate ≠ 0 := by rw [hsw]; exact hswr
  have hcond : o.staleWhileRevalidate ≠ 0 ∧ ci.staleWhileRevalidate ≠ 0 ∧
      (ci.timestamp : ℕ∞) + ci.maxAge + ci.staleWhileRevalidate > (now : ℕ∞) :=
    ⟨hswr, hcisw, hzone⟩
  constructor
  · simp only [reMemFn, hci, if_neg ht, if_neg hstale, if_pos hgate,
      if_pos hcond]
    rfl
  · intro e settleTime cache he
    unfold runBackground
    simp [he]

/-- Witness for C2: a concrete stale-while-revalidate call at `now = 150`
(fresh window `[0,100)` elapsed, revalidate window reaching to `600`)
returns the stale value, detaches one refresh, and a failing refresh
leaves the cache untouched. -/
theorem c2_swr_zone_returns_stale_and_refreshes_witness :
    (reMemFn (K := ℕ) (V := ℕ) (E := ℕ)
        ⟨100, 500, 0, false⟩ (fun _ => .promise (.err 7)) 0 150
        ⟨fun k => if k = 0 then
            some ⟨⟨0, .ok 42⟩, 0, 100, 500, 0, some 600⟩ else none, 1, 1⟩ =
      ⟨⟨0, .ok 42⟩,
        ⟨fun k => if k = 0 then
            some ⟨⟨0, .ok 42⟩, 0, 100, 500, 0, some 600⟩ else none, 2, 2⟩,
        some ⟨0, ⟨1, .err 7⟩, 150⟩⟩) ∧
    runBackground (K := ℕ) (V := ℕ) (E := ℕ) ⟨100, 500, 0, false⟩
        ⟨0, ⟨1, .err 7⟩, 150⟩ 400
        (fun k => if k = 0 then
            some ⟨⟨0, .ok 42⟩, 0, 100, 500, 0, some 600⟩ else none) =
      (fun k => if k = 0 then
            some ⟨⟨0, .ok 42⟩, 0, 100, 500, 0, some 600⟩ else none) := by
  have h := c2_swr_zone_returns_stale_and_refreshes (K := ℕ) (V := ℕ)
    (E := ℕ) ⟨100, 500, 0, false⟩ (fun _ => .promise (.err 7)) 0 150
    ⟨fun k => if k = 0 then
        some ⟨⟨0, .ok 42⟩, 0, 100, 500, 0, some 600⟩ else none, 1, 1⟩
    ⟨⟨0, .ok 42⟩, 0, 100, 500, 0, some 600⟩
    rfl rfl rfl (by decide) (by decide) (by decide) (by decide)
  exact ⟨h.1, h.2 7 400 _ rfl⟩

/-- Counterexample to C3 as stated.
With `maxAge = 100`, `staleIfError = ∞` (and no stale-while-revalidate),
the entry installed by a successful call at `t = 0` carries no eviction
timer, so a call at `t = 150` — fresh window elapsed, strictly inside the
configured stale-if-error window — is served by the no-expiry branch: the
wrapped operation (which would now succeed with the value `2`) is not
invoked at all, no new entry is installed, and the old cached value is
returned. -/
theorem c3_sie_zone_counterexample :
    ((reMemFn (K := ℕ) (V := ℕ) (E := ℕ) ⟨100, 0, ⊤, false⟩
        (fun n => .promise (.ok (n + 1))) 0 0
        ⟨fun _ => none, 0, 0⟩).state.cache 0 =
      some ⟨⟨0, .ok 1⟩, 0, 100, 0, ⊤, none⟩) ∧
    ¬ (((0 : Time) : ℕ∞) + (100 : ℕ∞) > ((150 : Time) : ℕ∞)) ∧
    (((0 : Time) : ℕ∞) + (100 : ℕ∞) + (⊤ : ℕ∞) > ((150 : Time) : ℕ∞)) ∧
    (reMemFn (K := ℕ) (V := ℕ) (E := ℕ) ⟨100, 0, ⊤, false⟩
        (fun n => .promise (.ok (n + 1))) 0 150
        (reMemFn (K := ℕ) (V := ℕ) (E := ℕ) ⟨100, 0, ⊤, false⟩
          (fun n => .promise (.ok (n + 1))) 0 0
          ⟨fun _ => none, 0, 0⟩).state).returned = ⟨0, .ok 1⟩ ∧
    (reMemFn (K := ℕ) (V := ℕ) (E := ℕ) ⟨100, 0, ⊤, false⟩
        (fun n => .promise (.ok (n + 1))) 0 150
        (reMemFn (K := ℕ) (V := ℕ) (E := ℕ) ⟨100, 0, ⊤, false⟩
          (fun n => .promise (.ok (n + 1))) 0 0
          ⟨fun _ => none, 0, 0⟩).state).state.calls = 1 ∧
    (reMemFn (K := ℕ) (V := ℕ) (E := ℕ) ⟨100, 0, ⊤, false⟩
        (fun n => .promise (.ok (n + 1))) 0 150
        (reMemFn (K := ℕ) (V := ℕ) (E := ℕ) ⟨100, 0, ⊤, false⟩
          (fun n => .promise (.ok (n + 1))) 0 0
          ⟨fun _ => none, 0, 0⟩).state).state.cache 0 =
      some ⟨⟨0, .ok 1⟩, 0, 100, 0, ⊤, none⟩ :=
  ⟨by decide, by decide, by decide, by decide, by decide, by decide⟩

/-- The claim C3, as amended.
For every entry carrying an eviction timer (no configured duration is
infinite) in the stale-if-error zone — fresh window elapsed, not in the
stale-while-revalidate zone, `now` within the configured stale-if-error
window — a call synchronously runs the wrapped operation and awaits it:
on success it installs a new entry (timestamp `now`) and returns the
fresh value, on failure it returns the existing stale entry value instead
of propagating the error.  Once `now` is past the end of the
stale-if-error window (and past the stale-while-revalidate window if one
is configured), a failing call propagates the operation's error.  The
timer proviso is forced: with an infinite stale-if-error duration the
entry has no timer and is served from cache without the operation ever
being re-invoked. -/
theorem c3_sie_zone_falls_back_then_propagates (o : Options) (op : Op V E)
    (key : K) (s : State K V E) (ci : CacheItem V E)
    (hci : s.cache key = some ci)
    (hma : ci.maxAge = o.maxAge)
    (hsw : ci.staleWhileRevalidate = o.staleWhileRevalidate)
    (hsie : ci.staleIfError = o.staleIfError)
    (ht : ci.timeout ≠ none) :
    (∀ now : Time,
      ¬ ((ci.timestamp : ℕ∞) + ci.maxAge > (now : ℕ∞)) →
      ¬ (o.staleWhileRevalidate ≠ 0 ∧
          (ci.timestamp : ℕ∞) + ci.maxAge + ci.staleWhileRevalidate >
            (now : ℕ∞)) →
      o.staleIfError ≠ 0 →
      (ci.timestamp : ℕ∞) + ci.maxAge + ci.staleIfError > (now : ℕ∞) →
      (∀ v, settle (op s.calls) = .ok v →
        reMemFn o op key now s =
          ⟨⟨s.nextId + 1, .ok v⟩,
            ⟨setCacheItem o s.cache key ⟨s.nextId, .ok v⟩ now now,
              s.nextId + 2, s.calls + 1⟩, none⟩) ∧
      (∀ e, settle (op s.calls) = .err e →
        reMemFn o op key now s =
          ⟨⟨s.nextId + 1, ci.data.result⟩,
            ⟨s.cache, s.nextId + 2, s.calls + 1⟩, none⟩)) ∧
    (∀ (now : Time) (e : E),
      ¬ ((ci.timestamp : ℕ∞) + ci.maxAge > (now : ℕ∞)) →
      ¬ (o.staleWhileRevalidate ≠ 0 ∧
          (ci.timestamp : ℕ∞) + ci.maxAge + ci.staleWhileRevalidate >
            (now : ℕ∞)) →
      ¬ ((ci.timestamp : ℕ∞) + ci.maxAge + ci.staleIfError > (now : ℕ∞)) →
      settle (op s.calls) = .err e →
      (reMemFn o op key now s).returned = ⟨s.nextId, .err e⟩ ∧
      (reMemFn o op key now s).state.calls = s.calls + 1) := by
  constructor
  · intro now hstale hnoswr hsie0 hzone
    have hgate : (ci.timestamp : ℕ∞) + timeoutTime o > (now : ℕ∞) := by
      refine lt_of_lt_of_le hzone ?_
      rw [hma, hsie, add_assoc]
      exact add_le_add_left (le_timeoutTime_sie o hsie0) _
    have hcond : ¬ (o.staleWhileRevalidate ≠ 0 ∧
        ci.staleWhileRevalidate ≠ 0 ∧
        (ci.timestamp : ℕ∞) + ci.maxAge + ci.staleWhileRevalidate >
          (now : ℕ∞)) := by
      rintro ⟨h1, _, h3⟩
      exact hnoswr ⟨h1, h3⟩
    constructor
    · intro v hok
      simp only [reMemFn, hci, if_neg ht, if_neg hstale, if_pos hgate,
        if_neg hcond, invokeFn, hok]
    · intro e he
      simp only [reMemFn, hci, if_neg ht, if_neg hstale, if_pos hgate,
        if_neg hcond, invokeFn, he]
  · intro now e hstale hnoswr hnozone he
    have hgateF : ¬ ((ci.timestamp : ℕ∞) + timeoutTime o > (now : ℕ∞)) := by
      rw [not_lt] at hstale hnozone ⊢
      have h1 : (ci.timestamp : ℕ∞) + o.maxAge ≤ (now : ℕ∞) := by
        rw [← hma]; exact hstale
      have h2 : (ci.timestamp : ℕ∞) +
          (if o.staleIfError ≠ 0 then o.staleIfError + o.maxAge else 0) ≤
          (now : ℕ∞) := by
        by_cases hz : o.staleIfError = 0
        · simp only [hz, ne_eq, not_true_eq_false, if_false, add_zero]
          exact le_trans le_self_add h1
        · rw [if_pos hz, add_comm o.staleIfError, ← add_assoc, ← hma, ← hsie]
          exact hnozone
      have h3 : (ci.timestamp : ℕ∞) +
          (if o.staleWhileRevalidate ≠ 0 then
            o.staleWhileRevalidate + o.maxAge else 0) ≤ (now : ℕ∞) := by
        by_cases hz : o.staleWhileRevalidate = 0
        · simp only [hz, ne_eq, not_true_eq_false, if_false, add_zero]
          exact le_trans le_self_add h1
        · rw [if_pos hz, add_comm o.staleWhileRevalidate, ← add_assoc,
            ← hma, ← hsw]
          rw [not_and] at hnoswr
          exact not_lt.mp (hnoswr hz)
      unfold timeoutTime
      rw [← max_add_add_left, ← max_add_add_left]
      exact max_le h1 (max_le h2 h3)
    have hcold : reMemFn o op key now s = reMemColdPath o op key now s := by
      simp only [reMemFn, hci, if_neg ht, if_neg hstale, if_neg hgateF]
    rw [hcold, reMemColdPath_returned, reMemColdPath_calls, he]
    exact ⟨rfl, rfl⟩

/-- Witness for C3: with `maxAge = 100`, `staleIfError = 500`, a failing
refresh at `t = 101` returns the previous value with one extra
invocation; a successful refresh at `t = 101` installs a fresh entry; a
failing call at `t = 601` propagates the error. -/
theorem c3_sie_zone_falls_back_then_propagates_witness :
    (reMemFn (K := ℕ) (V := ℕ) (E := ℕ)
        ⟨100, 0, 500, false⟩ (fun _ => .promise (.err 7)) 0 101
        ⟨fun k => if k = 0 then
            some ⟨⟨0, .ok 42⟩, 0, 100, 0, 500, some 600⟩ else none, 1, 1⟩ =
      ⟨⟨2, .ok 42⟩,
        ⟨fun k => if k = 0 then
            some ⟨⟨0, .ok 42⟩, 0, 100, 0, 500, some 600⟩ else none, 3, 2⟩,
        none⟩) ∧
    (reMemFn (K := ℕ) (V := ℕ) (E := ℕ)
        ⟨100, 0, 500, false⟩ (fun _ => .promise (.ok 43)) 0 101
        ⟨fun k => if k = 0 then
            some ⟨⟨0, .ok 42⟩, 0, 100, 0, 500, some 600⟩ else none, 1, 1⟩ =
      ⟨⟨2, .ok 43⟩,
        ⟨setCacheItem ⟨100, 0, 500, false⟩
            (fun k => if k = 0 then
              some ⟨⟨0, .ok 42⟩, 0, 100, 0, 500, some 600⟩ else none)
            0 ⟨1, .ok 43⟩ 101 101, 3, 2⟩,
        none⟩) ∧
    ((reMemFn (K := ℕ) (V := ℕ) (E := ℕ)
        ⟨100, 0, 500, false⟩ (fun _ => .promise (.err 7)) 0 601
        ⟨fun k => if k = 0 then
            some ⟨⟨0, .ok 42⟩, 0, 100, 0, 500, some 600⟩ else none, 1, 1⟩).returned
      = ⟨1, .err 7⟩) := by
  have hE := c3_sie_zone_falls_back_then_propagates (K := ℕ) (V := ℕ)
    (E := ℕ) ⟨100, 0, 500, false⟩ (fun _ => .promise (.err 7)) 0
    ⟨fun k => if k = 0 then
        some ⟨⟨0, .ok 42⟩, 0, 100, 0, 500, some 600⟩ else none, 1, 1⟩
    ⟨⟨0, .ok 42⟩, 0, 100, 0, 500, some 600⟩
    rfl rfl rfl rfl (by decide)
  have hO := c3_sie_zone_falls_back_then_propagates (K := ℕ) (V := ℕ)
    (E := ℕ) ⟨100, 0, 500, false⟩ (fun _ => .promise (.ok 43)) 0
    ⟨fun k => if k = 0 then
        some ⟨⟨0, .ok 42⟩, 0, 100, 0, 500, some 600⟩ else none, 1, 1⟩
    ⟨⟨0, .ok 42⟩, 0, 100, 0, 500, some 600⟩
    rfl rfl rfl rfl (by decide)
  refine ⟨?_, ?_, ?_⟩
  · exact (hE.1 101 (by decide) (by decide) (by decide) (by decide)).2 7 rfl
  · exact (hO.1 101 (by decide) (by decide) (by decide) (by decide)).1 43 rfl
  · exact (hE.2 601 7 (by decide) (by decide) (by decide) rfl).1

lemma cold_fail_delete (o : Options) (op : Op V E) (key : K) (now : Time)
    (s : State K V E) (e : E)
    (hcpr : o.cachePromiseRejection = false)
    (hc : s.cache key = none)
    (he : settle (op s.calls) = .err e) :
    (reMemFn o op key now s).returned = ⟨s.nextId, .err e⟩ ∧
    (reMemFn o op key now s).state.cache key = none ∧
    (reMemFn o op key now s).state.calls = s.calls + 1 ∧
    (reMemFn o op key now s).state.nextId = s.nextId + 1 := by
  rw [reMemFn_cold_of_none o op key now s hc]
  refine ⟨by rw [reMemColdPath_returned, he], ?_, reMemColdPath_calls _ _ _ _ _,
    ?_⟩
  · simp [reMemColdPath, coldInstall, invokeFn, coldSettle, he, hcpr]
  · simp only [reMemColdPath, coldInstall, invokeFn]
    rw [coldSettle_nextId]

lemma cold_fail_keep (o : Options) (op : Op V E) (key : K) (now : Time)
    (s : State K V E) (e : E)
    (hcpr : o.cachePromiseRejection = true)
    (hc : s.cache key = none)
    (he : settle (op s.calls) = .err e) :
    reMemFn o op key now s =
      ⟨⟨s.nextId, .err e⟩,
        ⟨setCacheItem o s.cache key ⟨s.nextId, .err e⟩ now now,
          s.nextId + 1, s.calls + 1⟩, none⟩ := by
  rw [reMemFn_cold_of_none o op key now s hc]
  simp only [reMemColdPath, coldInstall, invokeFn, coldSettle, he, hcpr]
  rfl

/-- The claim C4.
With error-caching (`cachePromiseRejection`) disabled — the default — a
cold-path population whose operation fails has its just-installed entry
deleted immediately upon failure (deleting the entry discards its timer),
so two consecutive failing calls for the same key invoke the operation
twice; with error-caching enabled the failed entry is left in place
(holding the rejected handle) and that very rejection handle is replayed
to subsequent callers, so three consecutive failing calls invoke the
operation once. -/
theorem c4_error_caching_policy (o : Options) (op : Op V E) (key : K)
    (s : State K V E) (e : E) :
    (o.cachePromiseRejection = false → s.cache key = none →
      settle (op s.calls) = .err e →
      ∀ now : Time,
        (reMemFn o op key now s).returned = ⟨s.nextId, .err e⟩ ∧
        (reMemFn o op key now s).state.cache key = none ∧
        (reMemFn o op key now s).state.calls = s.calls + 1) ∧
    (o.cachePromiseRejection = false → s.cache key = none →
      settle (op s.calls) = .err e →
      ∀ e₂ : E, settle (op (s.calls + 1)) = .err e₂ →
      ∀ now₁ now₂ : Time,
        (reMemFn o op key now₂ (reMemFn o op key now₁ s).state).state.calls =
          s.calls + 2 ∧
        (reMemFn o op key now₂
            (reMemFn o op key now₁ s).state).returned.result = .err e₂) ∧
    (o.cachePromiseRejection = true → s.cache key = none →
      settle (op s.calls) = .err e →
      ∀ now : Time,
        reMemFn o op key now s =
          ⟨⟨s.nextId, .err e⟩,
            ⟨setCacheItem o s.cache key ⟨s.nextId, .err e⟩ now now,
              s.nextId + 1, s.calls + 1⟩, none⟩) ∧
    (o.cachePromiseRejection = true → o.maxAge = ⊤ → s.cache key = none →
      settle (op s.calls) = .err e →
      ∀ now₁ now₂ now₃ : Time,
        reMemFn o op key now₂ (reMemFn o op key now₁ s).state =
          ⟨⟨s.nextId, .err e⟩, (reMemFn o op key now₁ s).state, none⟩ ∧
        reMemFn o op key now₃
            (reMemFn o op key now₂ (reMemFn o op key now₁ s).state).state =
          ⟨⟨s.nextId, .err e⟩, (reMemFn o op key now₁ s).state, none⟩ ∧
        (reMemFn o op key now₁ s).state.calls = s.calls + 1) := by
  refine ⟨?_, ?_, ?_, ?_⟩
  · intro hcpr hc he now
    have h := cold_fail_delete o op key now s e hcpr hc he
    exact ⟨h.1, h.2.1, h.2.2.1⟩
  · intro hcpr hc he e₂ he₂ now₁ now₂
    have h₁ := cold_fail_delete o op key now₁ s e hcpr hc he
    have he₂' : settle (op ((reMemFn o op key now₁ s).state).calls) =
        .err e₂ := by rw [h₁.2.2.1]; exact he₂
    have h₂ := cold_fail_delete o op key now₂
      (reMemFn o op key now₁ s).state e₂ hcpr h₁.2.1 he₂'
    constructor
    · rw [h₂.2.2.1, h₁.2.2.1]
    · rw [h₂.1]
  · intro hcpr hc he now
    exact cold_fail_keep o op key now s e hcpr hc he
  · intro hcpr hma hc he now₁ now₂ now₃
    have h₁ := cold_fail_keep o op key now₁ s e hcpr hc he
    have htop : timeoutTime o = ⊤ := timeoutTime_eq_top o hma
    have hitem : (reMemFn o op key now₁ s).state.cache key =
        some ⟨⟨s.nextId, .err e⟩, now₁, o.maxAge, o.staleWhileRevalidate,
          o.staleIfError, none⟩ := by
      rw [h₁]
      simp [setCacheItem, htop]
    have h₂ := reMemFn_noExpiry o op key now₂
      (reMemFn o op key now₁ s).state _ hitem rfl
    refine ⟨h₂, ?_, by rw [h₁]⟩
    rw [h₂]
    exact reMemFn_noExpiry o op key now₃ (reMemFn o op key now₁ s).state _
      hitem rfl

/-- Witness for C4: with the default options the second of two failing
calls re-invokes the failing operation (two invocations); with
`cachePromiseRejection = true` the first rejection handle is replayed to
the second and third callers (one invocation in total). -/
theorem c4_error_caching_policy_witness :
    ((reMemFn (K := ℕ) (V := ℕ) (E := ℕ)
        ⟨⊤, 0, 0, false⟩ (fun _ => .promise (.err 5)) 0 1
        (reMemFn (K := ℕ) (V := ℕ) (E := ℕ)
          ⟨⊤, 0, 0, false⟩ (fun _ => .promise (.err 5)) 0 0
          ⟨fun _ => none, 0, 0⟩).state).state.calls = 2) ∧
    (reMemFn (K := ℕ) (V := ℕ) (E := ℕ)
        ⟨⊤, 0, 0, true⟩ (fun _ => .promise (.err 5)) 0 2
        (reMemFn (K := ℕ) (V := ℕ) (E := ℕ)
          ⟨⊤, 0, 0, true⟩ (fun _ => .promise (.err 5)) 0 1
          ⟨fun _ => none, 0, 0⟩).state =
      ⟨⟨0, .err 5⟩,
        (reMemFn (K := ℕ) (V := ℕ) (E := ℕ)
          ⟨⊤, 0, 0, true⟩ (fun _ => .promise (.err 5)) 0 1
          ⟨fun _ => none, 0, 0⟩).state, none⟩) ∧
    (reMemFn (K := ℕ) (V := ℕ) (E := ℕ)
        ⟨⊤, 0, 0, true⟩ (fun _ => .promise (.err 5)) 0 3
        (reMemFn (K := ℕ) (V := ℕ) (E := ℕ)
          ⟨⊤, 0, 0, true⟩ (fun _ => .promise (.err 5)) 0 2
          (reMemFn (K := ℕ) (V := ℕ) (E := ℕ)
            ⟨⊤, 0, 0, true⟩ (fun _ => .promise (.err 5)) 0 1
            ⟨fun _ => none, 0, 0⟩).state).state =
      ⟨⟨0, .err 5⟩,
        (reMemFn (K := ℕ) (V := ℕ) (E := ℕ)
          ⟨⊤, 0, 0, true⟩ (fun _ => .promise (.err 5)) 0 1
          ⟨fun _ => none, 0, 0⟩).state, none⟩) := by
  have hdel := (c4_error_caching_policy (K := ℕ) (V := ℕ) (E := ℕ)
    ⟨⊤, 0, 0, false⟩ (fun _ => .promise (.err 5)) 0
    ⟨fun _ => none, 0, 0⟩ 5).2.1 rfl rfl rfl 5 rfl 0 1
  have hkeep := (c4_error_caching_policy (K := ℕ) (V := ℕ) (E := ℕ)
    ⟨⊤, 0, 0, true⟩ (fun _ => .promise (.err 5)) 0
    ⟨fun _ => none, 0, 0⟩ 5).2.2.2 rfl rfl rfl rfl 1 2 3
  exact ⟨hdel.1, hkeep.1, hkeep.2.1⟩

/-- The claim C5.
For every installed entry, the scheduled eviction fires no earlier than
`createdAt + max(freshFor, freshFor + staleWhileRevalidateFor,
freshFor + staleIfErrorFor)` (unset windows contributing `0`), so an
entry inside any configured stale window has not yet been evicted by its
timer; if all three durations are unbounded, no eviction timer is
created.  `ct` is the ambient instant at which `setCacheItem` runs; it is
never before the entry's `timestamp`. -/
theorem c5_eviction_timer_bound (o : Options) (cache : Cache K V E)
    (key : K) (p : Prom V E) (ts ct : Time) (hts : ts ≤ ct) :
    ∃ ci, setCacheItem o cache key p ts ct key = some ci ∧
      ci.timestamp = ts ∧
      (∀ f : Time, ci.timeout = some f →
        (ts : ℕ∞) + max o.maxAge (max (o.maxAge + o.staleWhileRevalidate)
          (o.maxAge + o.staleIfError)) ≤ (f : ℕ∞)) ∧
      (∀ (f tnow : Time), ci.timeout = some f →
        ((tnow : ℕ∞) < (ts : ℕ∞) + o.maxAge + o.staleWhileRevalidate ∨
         (tnow : ℕ∞) < (ts : ℕ∞) + o.maxAge + o.staleIfError) →
        tnow < f) ∧
      (o.maxAge = ⊤ ∧ o.staleWhileRevalidate = ⊤ ∧ o.staleIfError = ⊤ →
        ci.timeout = none) := by
  have hb : ∀ f : Time,
      (if timeoutTime o ≠ ⊤ then some (ct + (timeoutTime o).toNat)
        else none) = some f →
      (ts : ℕ∞) + max o.maxAge (max (o.maxAge + o.staleWhileRevalidate)
        (o.maxAge + o.staleIfError)) ≤ (f : ℕ∞) := by
    intro f hf
    by_cases hne : timeoutTime o = ⊤
    · rw [if_neg (not_not_intro hne)] at hf
      exact Option.noConfusion hf
    · rw [if_pos hne] at hf
      injection hf with hf'
      subst hf'
      calc (ts : ℕ∞) + max o.maxAge (max (o.maxAge + o.staleWhileRevalidate)
            (o.maxAge + o.staleIfError))
          ≤ (ts : ℕ∞) + timeoutTime o :=
            add_le_add_left (max_windows_le_timeoutTime o) _
        _ ≤ (ct : ℕ∞) + timeoutTime o :=
            add_le_add_right (Nat.cast_le.mpr hts) _
        _ = ((ct + (timeoutTime o).toNat : Time) : ℕ∞) := by
            rw [Nat.cast_add, ENat.coe_toNat hne]
  refine ⟨_, setCacheItem_self o cache key p ts ct, rfl,
    fun f hf => hb f hf, ?_, ?_⟩
  · intro f tnow hf hwin
    have h1 := hb f hf
    have h2 : (tnow : ℕ∞) < (f : ℕ∞) := by
      rcases hwin with hw | hw
      · refine lt_of_lt_of_le hw (le_trans ?_ h1)
        rw [add_assoc]
        exact add_le_add_left
          (le_trans (le_max_left _ _) (le_max_right _ _)) _
      · refine lt_of_lt_of_le hw (le_trans ?_ h1)
        rw [add_assoc]
        exact add_le_add_left
          (le_trans (le_max_right _ _) (le_max_right _ _)) _
    exact_mod_cast h2
  · rintro ⟨h1, -, -⟩
    simp [timeoutTime_eq_top o h1]

/-- Witness for C5: with `maxAge = 100`, `staleWhileRevalidate = 500`,
`staleIfError = 300`, the entry installed at `0` has its eviction timer
no earlier than `600`, and instants inside either stale window precede
it. -/
theorem c5_eviction_timer_bound_witness :
    ∃ ci, setCacheItem (K := ℕ) (V := ℕ) (E := ℕ) ⟨100, 500, 300, false⟩
        (fun _ => none) 0 ⟨0, .ok 1⟩ 0 0 0 = some ci ∧
      ci.timestamp = 0 ∧
      (∀ f : Time, ci.timeout = some f →
        ((0 : Time) : ℕ∞) + max (100 : ℕ∞) (max ((100 : ℕ∞) + 500)
          ((100 : ℕ∞) + 300)) ≤ (f : ℕ∞)) ∧
      (∀ (f tnow : Time), ci.timeout = some f →
        ((tnow : ℕ∞) < ((0 : Time) : ℕ∞) + 100 + 500 ∨
         (tnow : ℕ∞) < ((0 : Time) : ℕ∞) + 100 + 300) →
        tnow < f) ∧
      ((100 : ℕ∞) = ⊤ ∧ (500 : ℕ∞) = ⊤ ∧ (300 : ℕ∞) = ⊤ →
        ci.timeout = none) :=
  c5_eviction_timer_bound ⟨100, 500, 300, false⟩ (fun _ => none) 0
    ⟨0, .ok 1⟩ 0 0 (by decide)

lemma cold_ok (o : Options) (op : Op V E) (key : K) (now : Time)
    (s : State K V E) (v : V)
    (hc : s.cache key = none)
    (hok : settle (op s.calls) = .ok v) :
    reMemFn o op key now s =
      ⟨⟨s.nextId, .ok v⟩,
        ⟨setCacheItem o s.cache key ⟨s.nextId, .ok v⟩ now now,
          s.nextId + 1, s.calls + 1⟩, none⟩ := by
  rw [reMemFn_cold_of_none o op key now s hc]
  simp only [reMemColdPath, coldInstall, invokeFn, coldSettle, hok]

/-- The claim C6.
With an unset (infinite) max-age, an entry is frozen forever: after the
first successful population for a key, every later call for that key —
whatever its instant, however many calls, whatever stale windows are
configured — returns the cached value as-is and never invokes the wrapped
operation again (the state, including the invocation count, is a
fixpoint). -/
theorem c6_infinite_maxAge_freezes_entry (o : Options) (op : Op V E)
    (key : K) (now₀ : Time) (s : State K V E) (v : V)
    (hma : o.maxAge = ⊤)
    (hc : s.cache key = none)
    (hok : settle (op s.calls) = .ok v) :
    (reMemFn o op key now₀ s).returned = ⟨s.nextId, .ok v⟩ ∧
    (reMemFn o op key now₀ s).state.calls = s.calls + 1 ∧
    (∀ t : Time,
      reMemFn o op key t (reMemFn o op key now₀ s).state =
        ⟨⟨s.nextId, .ok v⟩, (reMemFn o op key now₀ s).state, none⟩) ∧
    (∀ ts : List Time,
      runCalls o op key ts (reMemFn o op key now₀ s).state =
        (reMemFn o op key now₀ s).state) := by
  have h₁ := cold_ok o op key now₀ s v hc hok
  have htop : timeoutTime o = ⊤ := timeoutTime_eq_top o hma
  have hitem : (reMemFn o op key now₀ s).state.cache key =
      some ⟨⟨s.nextId, .ok v⟩, now₀, o.maxAge, o.staleWhileRevalidate,
        o.staleIfError, none⟩ := by
    rw [h₁]
    simp [setCacheItem, htop]
  have hstep : ∀ t : Time,
      reMemFn o op key t (reMemFn o op key now₀ s).state =
        ⟨⟨s.nextId, .ok v⟩, (reMemFn o op key now₀ s).state, none⟩ :=
    fun t => reMemFn_noExpiry o op key t _ _ hitem rfl
  refine ⟨by rw [h₁], by rw [h₁], hstep, ?_⟩
  intro ts
  induction ts with
  | nil => rfl
  | cons t ts ih =>
    show runCalls o op key ts
        (reMemFn o op key t (reMemFn o op key now₀ s).state).state = _
    rw [hstep t]
    exact ih

/-- Witness for C6: with default (infinite) max-age and both stale
windows configured, the operation runs once at `t = 0` and calls at
arbitrary later instants change nothing and return the cached value. -/
theorem c6_infinite_maxAge_freezes_entry_witness :
    (reMemFn (K := ℕ) (V := ℕ) (E := ℕ) ⟨⊤, 500, 300, false⟩
        (fun _ => .promise (.ok 42)) 0 0
        ⟨fun _ => none, 0, 0⟩).state.calls = 1 ∧
    reMemFn (K := ℕ) (V := ℕ) (E := ℕ) ⟨⊤, 500, 300, false⟩
        (fun _ => .promise (.ok 42)) 0 1000000
        (reMemFn (K := ℕ) (V := ℕ) (E := ℕ) ⟨⊤, 500, 300, false⟩
          (fun _ => .promise (.ok 42)) 0 0 ⟨fun _ => none, 0, 0⟩).state =
      ⟨⟨0, .ok 42⟩,
        (reMemFn (K := ℕ) (V := ℕ) (E := ℕ) ⟨⊤, 500, 300, false⟩
          (fun _ => .promise (.ok 42)) 0 0 ⟨fun _ => none, 0, 0⟩).state,
        none⟩ ∧
    runCalls (K := ℕ) (V := ℕ) (E := ℕ) ⟨⊤, 500, 300, false⟩
        (fun _ => .promise (.ok 42)) 0 [10, 20, 30]
        (reMemFn (K := ℕ) (V := ℕ) (E := ℕ) ⟨⊤, 500, 300, false⟩
          (fun _ => .promise (.ok 42)) 0 0 ⟨fun _ => none, 0, 0⟩).state =
      (reMemFn (K := ℕ) (V := ℕ) (E := ℕ) ⟨⊤, 500, 300, false⟩
        (fun _ => .promise (.ok 42)) 0 0 ⟨fun _ => none, 0, 0⟩).state := by
  have h := c6_infinite_maxAge_freezes_entry (K := ℕ) (V := ℕ) (E := ℕ)
    ⟨⊤, 500, 300, false⟩ (fun _ => .promise (.ok 42)) 0 0
    ⟨fun _ => none, 0, 0⟩ 42 rfl rfl rfl
  exact ⟨h.2.1, h.2.2.1 1000000, h.2.2.2 [10, 20, 30]⟩

/-- Counterexample to C7 as stated.
With `maxAge = 100` and `staleIfError = ∞` the installed entry carries no
eviction timer, so a call landing exactly on the fresh-window boundary
`now = createdAt + maxAge = 100` is not treated as having exited the
window: the no-expiry branch serves the cached value, invokes nothing and
detaches nothing, so the half-open boundary rule does not hold for every
entry and window. -/
theorem c7_boundary_counterexample :
    ((reMemFn (K := ℕ) (V := ℕ) (E := ℕ) ⟨100, 0, ⊤, false⟩
        (fun _ => .promise (.ok 1)) 0 0
        ⟨fun _ => none, 0, 0⟩).state.cache 0 =
      some ⟨⟨0, .ok 1⟩, 0, 100, 0, ⊤, none⟩) ∧
    (((0 : Time) : ℕ∞) + (100 : ℕ∞) = ((100 : Time) : ℕ∞)) ∧
    (reMemFn (K := ℕ) (V := ℕ) (E := ℕ) ⟨100, 0, ⊤, false⟩
        (fun _ => .promise (.ok 1)) 0 100
        (reMemFn (K := ℕ) (V := ℕ) (E := ℕ) ⟨100, 0, ⊤, false⟩
          (fun _ => .promise (.ok 1)) 0 0
          ⟨fun _ => none, 0, 0⟩).state).returned = ⟨0, .ok 1⟩ ∧
    (reMemFn (K := ℕ) (V := ℕ) (E := ℕ) ⟨100, 0, ⊤, false⟩
        (fun _ => .promise (.ok 1)) 0 100
        (reMemFn (K := ℕ) (V := ℕ) (E := ℕ) ⟨100, 0, ⊤, false⟩
          (fun _ => .promise (.ok 1)) 0 0
          ⟨fun _ => none, 0, 0⟩).state).state.calls = 1 ∧
    (reMemFn (K := ℕ) (V := ℕ) (E := ℕ) ⟨100, 0, ⊤, false⟩
        (fun _ => .promise (.ok 1)) 0 100
        (reMemFn (K := ℕ) (V := ℕ) (E := ℕ) ⟨100, 0, ⊤, false⟩
          (fun _ => .promise (.ok 1)) 0 0
          ⟨fun _ => none, 0, 0⟩).state).background = none :=
  ⟨by decide, by decide, by decide, by decide, rfl⟩

/-- The claim C7, as amended.
For every entry carrying an eviction timer, all freshness-window
comparisons with finite windows are half-open on the upper bound
(strict `<`): a call landing exactly on a window's boundary is treated as
having exited that window; an entry with no timer (some configured
duration infinite) is instead served from cache at and past every
boundary.  Concretely, for an entry with a timer whose
windows are the finite durations `m` (fresh) and `w` (stale):
at `now = timestamp + m` the call is no longer served from the fresh zone
— the wrapped operation is invoked; at `now = timestamp + m + w` the
stale-while-revalidate zone is over — no background refresh is detached;
and at `now = timestamp + m + w` with only stale-if-error configured the
stale-if-error zone is over — a failing operation's error propagates
instead of falling back to the stale value. -/
theorem c7_window_bounds_are_strict (op : Op V E) (key : K)
    (s : State K V E) :
    (∀ (o : Options) (ci : CacheItem V E) (m : ℕ),
      s.cache key = some ci → ci.timeout ≠ none →
      ci.maxAge = (m : ℕ∞) →
      (reMemFn o op key (ci.timestamp + m) s).state.calls = s.calls + 1) ∧
    (∀ (o : Options) (ci : CacheItem V E) (m w : ℕ),
      s.cache key = some ci → ci.timeout ≠ none →
      ci.maxAge = (m : ℕ∞) → ci.staleWhileRevalidate = (w : ℕ∞) →
      (reMemFn o op key (ci.timestamp + m + w) s).background = none) ∧
    (∀ (o : Options) (ci : CacheItem V E) (m w : ℕ) (e : E),
      s.cache key = some ci → ci.timeout ≠ none →
      o.maxAge = (m : ℕ∞) → ci.maxAge = o.maxAge →
      o.staleWhileRevalidate = 0 → o.staleIfError = (w : ℕ∞) →
      settle (op s.calls) = .err e →
      (reMemFn o op key (ci.timestamp + m + w) s).returned =
          ⟨s.nextId, .err e⟩ ∧
      (reMemFn o op key (ci.timestamp + m + w) s).state.calls =
          s.calls + 1) := by
  refine ⟨?_, ?_, ?_⟩
  · intro o ci m hci ht hm
    have hfreshF : ¬ ((ci.timestamp : ℕ∞) + ci.maxAge >
        ((ci.timestamp + m : Time) : ℕ∞)) := by
      rw [hm]
      simp only [← Nat.cast_add, Nat.cast_lt]
      omega
    simp only [reMemFn, hci, if_neg ht, if_neg hfreshF]
    by_cases hg : (ci.timestamp : ℕ∞) + timeoutTime o >
        ((ci.timestamp + m : Time) : ℕ∞)
    · rw [if_pos hg]
      by_cases hsw : o.staleWhileRevalidate ≠ 0 ∧
          ci.staleWhileRevalidate ≠ 0 ∧
          (ci.timestamp : ℕ∞) + ci.maxAge + ci.staleWhileRevalidate >
            ((ci.timestamp + m : Time) : ℕ∞)
      · rw [if_pos hsw]
        rfl
      · rw [if_neg hsw]
        cases hres : settle (op s.calls) <;> simp [invokeFn, hres]
    · rw [if_neg hg]
      exact reMemColdPath_calls _ _ _ _ _
  · intro o ci m w hci ht hm hw
    have hfreshF : ¬ ((ci.timestamp : ℕ∞) + ci.maxAge >
        ((ci.timestamp + m + w : Time) : ℕ∞)) := by
      rw [hm]
      simp only [← Nat.cast_add, Nat.cast_lt]
      omega
    have hcondF : ¬ (o.staleWhileRevalidate ≠ 0 ∧
        ci.staleWhileRevalidate ≠ 0 ∧
        (ci.timestamp : ℕ∞) + ci.maxAge + ci.staleWhileRevalidate >
          ((ci.timestamp + m + w : Time) : ℕ∞)) := by
      rintro ⟨-, -, h3⟩
      rw [hm, hw] at h3
      revert h3
      simp only [← Nat.cast_add, Nat.cast_lt]
      omega
    simp only [reMemFn, hci, if_neg ht, if_neg hfreshF]
    by_cases hg : (ci.timestamp : ℕ∞) + timeoutTime o >
        ((ci.timestamp + m + w : Time) : ℕ∞)
    · rw [if_pos hg, if_neg hcondF]
      cases hres : settle (op s.calls) <;> simp [invokeFn, hres]
    · rw [if_neg hg]
      exact reMemColdPath_background _ _ _ _ _
  · intro o ci m w e hci ht hmo hma hsw0 hsieo he
    have hfreshF : ¬ ((ci.timestamp : ℕ∞) + ci.maxAge >
        ((ci.timestamp + m + w : Time) : ℕ∞)) := by
      rw [hma, hmo]
      simp only [← Nat.cast_add, Nat.cast_lt]
      omega
    have htt : timeoutTime o ≤ ((m + w : ℕ) : ℕ∞) := by
      unfold timeoutTime
      rw [hmo, hsieo, hsw0]
      refine max_le ?_ (max_le ?_ ?_)
      · exact Nat.cast_le.mpr (Nat.le_add_right m w)
      · by_cases hw0 : ((w : ℕ∞)) = 0
        · rw [if_neg (not_not_intro hw0)]
          exact zero_le _
        · rw [if_pos hw0, ← Nat.cast_add]
          exact Nat.cast_le.mpr (by omega)
      · simp
    have hgateF : ¬ ((ci.timestamp : ℕ∞) + timeoutTime o >
        ((ci.timestamp + m + w : Time) : ℕ∞)) := by
      refine not_lt.mpr ?_
      calc (ci.timestamp : ℕ∞) + timeoutTime o
          ≤ (ci.timestamp : ℕ∞) + ((m + w : ℕ) : ℕ∞) :=
            add_le_add_left htt _
        _ = ((ci.timestamp + m + w : Time) : ℕ∞) := by
            rw [← Nat.cast_add, add_assoc]
    have hcold : reMemFn o op key (ci.timestamp + m + w) s =
        reMemColdPath o op key (ci.timestamp + m + w) s := by
      simp only [reMemFn, hci, if_neg ht, if_neg hfreshF, if_neg hgateF]
    rw [hcold, reMemColdPath_returned, reMemColdPath_calls, he]
    exact ⟨rfl, rfl⟩

/-- Witness for C7: with `maxAge = 100` a call at exactly `t = 100`
invokes the operation; with `staleWhileRevalidate = 500` a call at
exactly `t = 600` detaches no refresh; with only `staleIfError = 300` a
failing call at exactly `t = 400` propagates the error. -/
theorem c7_window_bounds_are_strict_witness :
    ((reMemFn (K := ℕ) (V := ℕ) (E := ℕ) ⟨100, 500, 300, false⟩
        (fun _ => .promise (.err 7)) 0 100
        ⟨fun k => if k = 0 then
            some ⟨⟨0, .ok 1⟩, 0, 100, 500, 300, some 600⟩ else none,
          1, 1⟩).state.calls = 2) ∧
    ((reMemFn (K := ℕ) (V := ℕ) (E := ℕ) ⟨100, 500, 300, false⟩
        (fun _ => .promise (.err 7)) 0 600
        ⟨fun k => if k = 0 then
            some ⟨⟨0, .ok 1⟩, 0, 100, 500, 300, some 600⟩ else none,
          1, 1⟩).background = none) ∧
    ((reMemFn (K := ℕ) (V := ℕ) (E := ℕ) ⟨100, 0, 300, false⟩
        (fun _ => .promise (.err 7)) 0 400
        ⟨fun k => if k = 0 then
            some ⟨⟨0, .ok 1⟩, 0, 100, 0, 300, some 400⟩ else none,
          1, 1⟩).returned = ⟨1, .err 7⟩) := by
  have h₁ := (c7_window_bounds_are_strict (K := ℕ) (V := ℕ) (E := ℕ)
    (fun _ => .promise (.err 7)) 0
    ⟨fun k => if k = 0 then
        some ⟨⟨0, .ok 1⟩, 0, 100, 500, 300, some 600⟩ else none, 1, 1⟩).1
    ⟨100, 500, 300, false⟩ ⟨⟨0, .ok 1⟩, 0, 100, 500, 300, some 600⟩ 100
    rfl (by decide) rfl
  have h₂ := (c7_window_bounds_are_strict (K := ℕ) (V := ℕ) (E := ℕ)
    (fun _ => .promise (.err 7)) 0
    ⟨fun k => if k = 0 then
        some ⟨⟨0, .ok 1⟩, 0, 100, 500, 300, some 600⟩ else none, 1, 1⟩).2.1
    ⟨100, 500, 300, false⟩ ⟨⟨0, .ok 1⟩, 0, 100, 500, 300, some 600⟩ 100 500
    rfl (by decide) rfl rfl
  have h₃ := (c7_window_bounds_are_strict (K := ℕ) (V := ℕ) (E := ℕ)
    (fun _ => .promise (.err 7)) 0
    ⟨fun k => if k = 0 then
        some ⟨⟨0, .ok 1⟩, 0, 100, 0, 300, some 400⟩ else none, 1, 1⟩).2.2
    ⟨100, 0, 300, false⟩ ⟨⟨0, .ok 1⟩, 0, 100, 0, 300, some 400⟩ 100 300 7
    rfl (by decide) rfl rfl rfl rfl rfl
  exact ⟨h₁, h₂, h₃.1⟩

/-- Counterexample to C8 as stated.
With `maxAge = 0` (legal: it forces re-population on every call) a first
call at `t = 0` installs the in-flight entry, yet a second call at the
same instant, while the operation is still pending, finds the entry but
re-invokes the operation (two invocations) and hands back a different
handle: the cold-path install alone does not guarantee coalescing for
every configuration. -/
theorem c8_cold_coalescing_counterexample :
    ((coldInstall (K := ℕ) (V := ℕ) (E := ℕ) ⟨0, 0, 0, false⟩
        (fun _ => .promise (.ok 1)) 0 0 ⟨fun _ => none, 0, 0⟩).2.cache
        0).isSome = true ∧
    (reMemFn (K := ℕ) (V := ℕ) (E := ℕ) ⟨0, 0, 0, false⟩
        (fun _ => .promise (.ok 1)) 0 0
        (coldInstall (K := ℕ) (V := ℕ) (E := ℕ) ⟨0, 0, 0, false⟩
          (fun _ => .promise (.ok 1)) 0 0
          ⟨fun _ => none, 0, 0⟩).2).state.calls = 2 ∧
    (reMemFn (K := ℕ) (V := ℕ) (E := ℕ) ⟨0, 0, 0, false⟩
        (fun _ => .promise (.ok 1)) 0 0
        (coldInstall (K := ℕ) (V := ℕ) (E := ℕ) ⟨0, 0, 0, false⟩
          (fun _ => .promise (.ok 1)) 0 0
          ⟨fun _ => none, 0, 0⟩).2).returned.id ≠
      (coldInstall (K := ℕ) (V := ℕ) (E := ℕ) ⟨0, 0, 0, false⟩
        (fun _ => .promise (.ok 1)) 0 0 ⟨fun _ => none, 0, 0⟩).1.id := by
  refine ⟨rfl, rfl, ?_⟩
  decide

/-- The claim C8 as amended.
On the cold path the new entry holding the in-flight value handle is
installed in the cache synchronously, before the wrapped operation
settles (the synchronous phase `coldInstall`); the first caller's handle
is exactly that in-flight handle; and a second call for the same key made
while the operation is still pending — provided the entry has not already
exited its fresh window (max-age infinite, or the second call strictly
before `createdAt + maxAge`) — finds the entry, returns the same
in-flight handle, and does not invoke the wrapped operation again. -/
theorem c8_cold_install_coalesces_amended (o : Options) (op : Op V E)
    (key : K) (now t : Time) (s : State K V E)
    (hc : s.cache key = none)
    (hfresh : o.maxAge = ⊤ ∨ (t : ℕ∞) < (now : ℕ∞) + o.maxAge) :
    (reMemFn o op key now s).returned = (coldInstall o op key now s).1 ∧
    (∃ ci, (coldInstall o op key now s).2.cache key = some ci ∧
      ci.data = (coldInstall o op key now s).1) ∧
    reMemFn o op key t (coldInstall o op key now s).2 =
      ⟨(coldInstall o op key now s).1, (coldInstall o op key now s).2,
        none⟩ := by
  have hitem : (coldInstall o op key now s).2.cache key =
      some ⟨⟨s.nextId, settle (op s.calls)⟩, now, o.maxAge,
        o.staleWhileRevalidate, o.staleIfError,
        if timeoutTime o ≠ ⊤ then some (now + (timeoutTime o).toNat)
        else none⟩ := by
    simp [coldInstall, invokeFn, setCacheItem]
  refine ⟨by rw [reMemFn_cold_of_none o op key now s hc]; rfl,
    ⟨_, hitem, rfl⟩, ?_⟩
  by_cases hto : timeoutTime o = ⊤
  · have hnone : (if timeoutTime o ≠ ⊤ then
        some (now + (timeoutTime o).toNat) else none) = (none : Option Time) :=
      if_neg (not_not_intro hto)
    exact reMemFn_noExpiry o op key t _ _ hitem hnone
  · have hma : o.maxAge ≠ ⊤ := fun h => hto (timeoutTime_eq_top o h)
    have ht : (t : ℕ∞) < (now : ℕ∞) + o.maxAge := by
      rcases hfresh with h | h
      · exact absurd h hma
      · exact h
    exact reMemFn_fresh o op key t _ _ hitem ht

/-- Witness for the amended C8: with default options a concurrent second
call at the same instant returns the first call's in-flight handle and
the state is untouched. -/
theorem c8_cold_install_coalesces_amended_witness :
    (reMemFn (K := ℕ) (V := ℕ) (E := ℕ) ⟨⊤, 0, 0, false⟩
        (fun _ => .promise (.ok 1)) 0 0
        ⟨fun _ => none, 0, 0⟩).returned =
      (coldInstall (K := ℕ) (V := ℕ) (E := ℕ) ⟨⊤, 0, 0, false⟩
        (fun _ => .promise (.ok 1)) 0 0 ⟨fun _ => none, 0, 0⟩).1 ∧
    (∃ ci, (coldInstall (K := ℕ) (V := ℕ) (E := ℕ) ⟨⊤, 0, 0, false⟩
        (fun _ => .promise (.ok 1)) 0 0
        ⟨fun _ => none, 0, 0⟩).2.cache 0 = some ci ∧
      ci.data = (coldInstall (K := ℕ) (V := ℕ) (E := ℕ) ⟨⊤, 0, 0, false⟩
        (fun _ => .promise (.ok 1)) 0 0 ⟨fun _ => none, 0, 0⟩).1) ∧
    reMemFn (K := ℕ) (V := ℕ) (E := ℕ) ⟨⊤, 0, 0, false⟩
        (fun _ => .promise (.ok 1)) 0 0
        (coldInstall (K := ℕ) (V := ℕ) (E := ℕ) ⟨⊤, 0, 0, false⟩
          (fun _ => .promise (.ok 1)) 0 0 ⟨fun _ => none, 0, 0⟩).2 =
      ⟨(coldInstall (K := ℕ) (V := ℕ) (E := ℕ) ⟨⊤, 0, 0, false⟩
          (fun _ => .promise (.ok 1)) 0 0 ⟨fun _ => none, 0, 0⟩).1,
        (coldInstall (K := ℕ) (V := ℕ) (E := ℕ) ⟨⊤, 0, 0, false⟩
          (fun _ => .promise (.ok 1)) 0 0 ⟨fun _ => none, 0, 0⟩).2,
        none⟩ :=
  c8_cold_install_coalesces_amended ⟨⊤, 0, 0, false⟩
    (fun _ => .promise (.ok 1)) 0 0 0 ⟨fun _ => none, 0, 0⟩ rfl
    (Or.inl rfl)

/-- The claim C9.
`clear` raises an immediate synchronous usage error in exactly two cases,
each without mutating any cache entry: on a handle that was never
memoized it raises one usage error, and on a memoized handle whose bound
store lacks a clear capability it raises a distinct one; otherwise it
invokes the store's bulk-clear. -/
theorem c9_clear_usage_errors (c : BoundCache K V E) :
    clearFn false c = (some .notMemoized, c) ∧
    (c.hasClear = false → clearFn true c = (some .cacheNotClearable, c)) ∧
    (c.hasClear = true →
      clearFn true c = (none, { c with entries := fun _ => none })) ∧
    ClearError.notMemoized ≠ ClearError.cacheNotClearable := by
  refine ⟨rfl, ?_, ?_, by decide⟩
  · intro h
    simp [clearFn, h]
  · intro h
    simp [clearFn, h]

/-- Witness for C9: the two usage errors on a concrete store, unchanged
in both error cases, and the bulk-clear on a clearable store. -/
theorem c9_clear_usage_errors_witness :
    clearFn (K := ℕ) (V := ℕ) (E := ℕ) false ⟨fun _ => none, false⟩ =
      (some .notMemoized, ⟨fun _ => none, false⟩) ∧
    clearFn (K := ℕ) (V := ℕ) (E := ℕ) true ⟨fun _ => none, false⟩ =
      (some .cacheNotClearable, ⟨fun _ => none, false⟩) ∧
    clearFn (K := ℕ) (V := ℕ) (E := ℕ) true ⟨fun _ => none, true⟩ =
      (none, ⟨fun _ => none, true⟩) := by
  have h₁ := c9_clear_usage_errors (K := ℕ) (V := ℕ) (E := ℕ)
    ⟨fun _ => none, false⟩
  have h₂ := c9_clear_usage_errors (K := ℕ) (V := ℕ) (E := ℕ)
    ⟨fun _ => none, true⟩
  exact ⟨h₁.1, h₁.2.1 rfl, h₂.2.2.1 rfl⟩

/-- The claim C10.
The memoized function never raises an error synchronously to its caller:
a call is a total function into `CallResult` (there is no synchronous
exception channel in its type), and a wrapped operation that throws
synchronously is handled exactly like one returning a rejected promise —
the caller receives a normally-returned handle that carries the failure
as a rejection, the entry installed on the cold path holds that same
rejected handle, and that handle is then removed from (error-caching
disabled) or left in (error-caching enabled) the cache. -/
theorem c10_sync_throw_becomes_rejection (o : Options) (key : K)
    (now : Time) (s : State K V E) :
    (∀ op₁ op₂ : Op V E, (∀ n, settle (op₁ n) = settle (op₂ n)) →
      reMemFn o op₁ key now s = reMemFn o op₂ key now s) ∧
    (∀ (op : Op V E) (e : E), s.cache key = none →
      op s.calls = .throws e →
      (reMemFn o op key now s).returned = ⟨s.nextId, .err e⟩ ∧
      (∃ ci, (coldInstall o op key now s).2.cache key = some ci ∧
        ci.data = ⟨s.nextId, .err e⟩) ∧
      (o.cachePromiseRejection = false →
        (reMemFn o op key now s).state.cache key = none) ∧
      (o.cachePromiseRejection = true →
        (reMemFn o op key now s).state.cache key =
          some ⟨⟨s.nextId, .err e⟩, now, o.maxAge,
            o.staleWhileRevalidate, o.staleIfError,
            if timeoutTime o ≠ ⊤ then some (now + (timeoutTime o).toNat)
            else none⟩)) := by
  constructor
  · intro op₁ op₂ h
    have hs : settle (op₁ s.calls) = settle (op₂ s.calls) := h s.calls
    cases hck : s.cache key with
    | none =>
      simp only [reMemFn, hck, reMemColdPath, coldInstall, invokeFn,
        coldSettle, hs]
    | some ci =>
      simp only [reMemFn, hck, reMemColdPath, coldInstall, invokeFn,
        coldSettle, hs]
  · intro op e hc hop
    have he : settle (op s.calls) = .err e := by rw [hop]; rfl
    have hitem : (coldInstall o op key now s).2.cache key =
        some ⟨⟨s.nextId, settle (op s.calls)⟩, now, o.maxAge,
          o.staleWhileRevalidate, o.staleIfError,
          if timeoutTime o ≠ ⊤ then some (now + (timeoutTime o).toNat)
          else none⟩ := by
      simp [coldInstall, invokeFn, setCacheItem]
    refine ⟨?_, ⟨_, hitem, by rw [he]⟩, ?_, ?_⟩
    · rw [reMemFn_cold_of_none o op key now s hc,
        reMemColdPath_returned, he]
    · intro hcpr
      exact (cold_fail_delete o op key now s e hcpr hc he).2.1
    · intro hcpr
      rw [cold_fail_keep o op key now s e hcpr hc he]
      simp [setCacheItem]

/-- Witness for C10: a concrete synchronously-throwing operation behaves
exactly like a rejected-promise one, the caller's handle carries the
rejection, and under the default policy the entry is removed again. -/
theorem c10_sync_throw_becomes_rejection_witness :
    (reMemFn (K := ℕ) (V := ℕ) (E := ℕ) ⟨⊤, 0, 0, false⟩
        (fun _ => .throws 9) 0 0 ⟨fun _ => none, 0, 0⟩ =
      reMemFn (K := ℕ) (V := ℕ) (E := ℕ) ⟨⊤, 0, 0, false⟩
        (fun _ => .promise (.err 9)) 0 0 ⟨fun _ => none, 0, 0⟩) ∧
    (reMemFn (K := ℕ) (V := ℕ) (E := ℕ) ⟨⊤, 0, 0, false⟩
        (fun _ => .throws 9) 0 0
        ⟨fun _ => none, 0, 0⟩).returned = ⟨0, .err 9⟩ ∧
    (reMemFn (K := ℕ) (V := ℕ) (E := ℕ) ⟨⊤, 0, 0, false⟩
        (fun _ => .throws 9) 0 0
        ⟨fun _ => none, 0, 0⟩).state.cache 0 = none := by
  have h := c10_sync_throw_becomes_rejection (K := ℕ) (V := ℕ) (E := ℕ)
    ⟨⊤, 0, 0, false⟩ 0 0 ⟨fun _ => none, 0, 0⟩
  have h₂ := h.2 (fun _ => .throws 9) 9 rfl rfl
  exact ⟨h.1 (fun _ => .throws 9) (fun _ => .promise (.err 9))
    (fun _ => rfl), h₂.1, h₂.2.2.1 rfl⟩

end ReMem
